import Mathlib

/-!
# Verification of the greener write-batch core (src/db.go, src/tx.go)

Shallow embedding of the single-writer transaction batcher:

* `TxWrapper` and its operations embed `src/tx.go` (`txWrapper`, `rowWrapper`,
  `rowsWrapper`).  The underlying store is nondeterministic, so every
  operation takes the store's would-be answer as an oracle argument and
  reports, besides its Go return value, whether the store was actually
  contacted, whether a rollback was issued, and whether a `panic` was hit.
* `procStep` embeds the body of `batchProcessor` in `src/db.go` (one event:
  a received write request, or a flush-timer tick).
* `newBatchDB` embeds the construction path of `NewBatchDB` in `src/db.go`,
  with each fallible step (open / pragma setup) given by an oracle.
* `tickerPeriodNs` embeds the ticker-period computation at `src/db.go:115`
  (`time.NewTicker(db.flushTimeout * time.Millisecond)`), with Go `int64`
  (`time.Duration`) wraparound made explicit.
-/

namespace Greener

/-- Errors that flow through the core.  `alreadyAborted` is the locally
synthesized `"this transaction is already aborted"`; `transactionAborted` is
the generic `"Transaction aborted"` broadcast by the batch processor; the
other constructors stand for distinct store-level, user-returned, `Begin` and
`Commit` errors. -/
inductive Err where
  | alreadyAborted
  | transactionAborted
  | store (code : Nat)
  | user (code : Nat)
  | beginFail (code : Nat)
  | commitFail (code : Nat)
deriving DecidableEq, Repr

/-- `txWrapper` (src/tx.go:9-12): the live transaction plus the shared error
cell.  The `*sql.Tx` pointer itself carries no modelled state beyond the
rollback effect, so only the cell is kept. -/
structure TxWrapper where
  err : Option Err
deriving DecidableEq, Repr

/-- Result of `txWrapper.Abort` (src/tx.go:14-23): the updated wrapper,
whether the `panic("Abort called again ...")` branch was hit, and whether
`tx.Rollback` was issued. -/
structure AbortRes where
  wrapper : TxWrapper
  panicked : Bool
  rolledBack : Bool
deriving DecidableEq, Repr

/-- `txWrapper.Abort` (src/tx.go:14-23): panics if the cell is already set,
otherwise records the error and rolls the transaction back. -/
def TxWrapper.abort (t : TxWrapper) (e : Err) : AbortRes :=
  match t.err with
  | some _ => ⟨t, true, false⟩
  | none => ⟨⟨some e⟩, false, true⟩

/-- Outcome of a handle or cursor operation returning a value of type `α`:
the wrapper state afterwards, the Go return value, and the observable
effects.  `panicked` is the double-`Abort` panic of src/tx.go:16; `nilDeref`
is a nil-pointer fault from dereferencing a nil `*sql.Row`. -/
structure OpRes (α : Type) where
  wrapper : TxWrapper
  result : α
  storeCalled : Bool
  rolledBack : Bool
  panicked : Bool
  nilDeref : Bool
deriving DecidableEq, Repr

/-- `txWrapper.ExecContext` (src/tx.go:25-34).  `store` is the error the
underlying `tx.ExecContext` would return (`none` = success); the Go error
return is modelled as `Option Err`. -/
def TxWrapper.execContext (t : TxWrapper) (store : Option Err) :
    OpRes (Option Err) :=
  match t.err with
  | some _ => ⟨t, some .alreadyAborted, false, false, false, false⟩
  | none =>
    match store with
    | none => ⟨t, none, true, false, false, false⟩
    | some e =>
      let a := t.abort e
      ⟨a.wrapper, some e, true, a.rolledBack, a.panicked, false⟩

/-- A `rowsWrapper` cursor (src/tx.go:71-74) holds a pointer to the
`txWrapper` that created it, never a copy of the cell; in this embedding the
creating wrapper's current state is passed to each cursor operation
explicitly.  The cursor value itself carries no further modelled state. -/
structure RowsCursor where
  live : Bool
deriving DecidableEq, Repr

/-- `txWrapper.QueryContext` (src/tx.go:36-46): on success returns a cursor
wired to this wrapper; on a store error aborts and returns the error. -/
def TxWrapper.queryContext (t : TxWrapper) (store : Option Err) :
    OpRes (Option RowsCursor × Option Err) :=
  match t.err with
  | some _ => ⟨t, (none, some .alreadyAborted), false, false, false, false⟩
  | none =>
    match store with
    | none => ⟨t, (some ⟨true⟩, none), true, false, false, false⟩
    | some e =>
      let a := t.abort e
      ⟨a.wrapper, (none, some e), true, a.rolledBack, a.panicked, false⟩

/-- `rowWrapper` (src/tx.go:55-58): a possibly-nil `*sql.Row` plus the
back-reference to the creating wrapper (passed explicitly to `rowScan`). -/
structure RowWrapper where
  row : Option Unit
deriving DecidableEq, Repr

/-- `txWrapper.QueryRowContext` (src/tx.go:48-53): when the cell is set it
returns a wrapper with a nil row and does not contact the store. -/
def TxWrapper.queryRowContext (t : TxWrapper) : OpRes RowWrapper :=
  match t.err with
  | some _ => ⟨t, ⟨none⟩, false, false, false, false⟩
  | none => ⟨t, ⟨some ()⟩, true, false, false, false⟩

/-- `rowWrapper.Scan` (src/tx.go:60-69).  `t` is the current state of the
wrapper the row was created from.  Dereferencing a nil row is reported in
`nilDeref` (a nil-pointer fault in Go). -/
def rowScan (t : TxWrapper) (r : RowWrapper) (store : Option Err) :
    OpRes (Option Err) :=
  match t.err with
  | some _ => ⟨t, some .alreadyAborted, false, false, false, false⟩
  | none =>
    match r.row with
    | none => ⟨t, none, false, false, false, true⟩
    | some _ =>
      match store with
      | none => ⟨t, none, true, false, false, false⟩
      | some e =>
        let a := t.abort e
        ⟨a.wrapper, some e, true, a.rolledBack, a.panicked, false⟩

/-- `rowsWrapper.Scan` (src/tx.go:76-85). -/
def rowsScan (t : TxWrapper) (store : Option Err) : OpRes (Option Err) :=
  match t.err with
  | some _ => ⟨t, some .alreadyAborted, false, false, false, false⟩
  | none =>
    match store with
    | none => ⟨t, none, true, false, false, false⟩
    | some e =>
      let a := t.abort e
      ⟨a.wrapper, some e, true, a.rolledBack, a.panicked, false⟩

/-- `rowsWrapper.Next` (src/tx.go:87-92): returns `false` without a store
call once the cell is set; otherwise the underlying `rows.Next` answer. -/
def rowsNext (t : TxWrapper) (store : Bool) : OpRes Bool :=
  match t.err with
  | some _ => ⟨t, false, false, false, false, false⟩
  | none => ⟨t, store, true, false, false, false⟩

/-- `rowsWrapper.Close` (src/tx.go:94-99). -/
def rowsClose (t : TxWrapper) (store : Option Err) : OpRes (Option Err) :=
  match t.err with
  | some _ => ⟨t, some .alreadyAborted, false, false, false, false⟩
  | none => ⟨t, store, true, false, false, false⟩

/-- `rowsWrapper.Err` (src/tx.go:101-106). -/
def rowsErr (t : TxWrapper) (store : Option Err) : OpRes (Option Err) :=
  match t.err with
  | some _ => ⟨t, some .alreadyAborted, false, false, false, false⟩
  | none => ⟨t, store, true, false, false, false⟩

/-! ## The batch processor (src/db.go:112-159)

A write unit's function is caller-supplied code that may only touch the
handle it is given (`WriteDBHandler` exposes `ExecContext`, `QueryContext`
and `QueryRowContext`), so for the processor it is characterised by the
sequence of handle operations it performs and the error value it finally
returns — which, in Go, need not be related to those operations' outcomes.
`FnOp.exec` and `FnOp.query` realise every reachable evolution of the
handle's error cell (row scans behave identically on the cell). -/

/-- One handle operation performed by a write unit's function, with the
store's answer as oracle. -/
inductive FnOp where
  | exec (store : Option Err)
  | query (store : Option Err)
deriving DecidableEq, Repr

/-- Accumulated state while a unit's function runs against its handle. -/
structure FnRes where
  wrapper : TxWrapper
  rolledBack : Bool
  panicked : Bool
deriving DecidableEq, Repr

/-- Apply one handle operation, accumulating effects. -/
def applyOp (acc : FnRes) : FnOp → FnRes
  | .exec store =>
    let r := acc.wrapper.execContext store
    ⟨r.wrapper, acc.rolledBack || r.rolledBack, acc.panicked || r.panicked⟩
  | .query store =>
    let r := acc.wrapper.queryContext store
    ⟨r.wrapper, acc.rolledBack || r.rolledBack, acc.panicked || r.panicked⟩

/-- Run a unit's handle operations from a given accumulated state. -/
def runFnFrom (acc : FnRes) : List FnOp → FnRes
  | [] => acc
  | op :: ops => runFnFrom (applyOp acc op) ops

/-- Execute a write unit's function against a fresh handle, as the processor
does at src/db.go:128-129: `txWrapper := &txWrapper{tx: currentTx}` starts
with an empty error cell for every received unit. -/
def runFn (ops : List FnOp) : FnRes :=
  runFnFrom ⟨⟨none⟩, false, false⟩ ops

/-- Processor-local state of `batchProcessor` (src/db.go:113-114): the
pending requests (identified by the ids of their private response channels)
and whether `currentTx` is a live, not yet committed or rolled back,
transaction. -/
structure ProcState where
  pending : List Nat
  txOpen : Bool
deriving DecidableEq, Repr

/-- One iteration of the processor's `select` (src/db.go:118): either a
write request arrives — carrying the outcome `Begin` would have (consulted
only when the batch is empty), the unit's handle operations, and the error
value the unit's function returns — or the flush ticker fires, carrying the
outcome `Commit` would have. -/
inductive Event where
  | recv (id : Nat) (beginRes : Option Err) (ops : List FnOp) (ret : Option Err)
  | tick (commitRes : Option Err)
deriving DecidableEq, Repr

/-- Observable outcome of one processor iteration: the next state, the
responses sent on units' private channels (`none` = success), and whether a
rollback, a commit, or a panic occurred. -/
structure StepOut where
  state : ProcState
  responses : List (Nat × Option Err)
  rolledBack : Bool
  committed : Bool
  panicked : Bool
deriving DecidableEq, Repr

/-- The body of `batchProcessor`'s event loop (src/db.go:117-158), one event
at a time.  On `recv`: with an empty batch a transaction is begun first, a
`Begin` failure resolving only this unit (src/db.go:120-126); then the
unit's function runs against a fresh handle; if it returned an error the
processor aborts (guarded on the cell being still empty) and resolves this
unit with that error (src/db.go:130-137); if the handle's cell ended
non-empty, every pending unit gets the generic `Transaction aborted` error
and the batch is cleared (src/db.go:138-145); otherwise the unit is
appended to the batch (src/db.go:146).  On `tick`: a non-empty batch is
committed and every pending unit gets the one commit outcome
(src/db.go:147-157). -/
def procStep (s : ProcState) : Event → StepOut
  | .recv id beginRes ops ret =>
    match s.pending, beginRes with
    | [], some e => ⟨⟨[], false⟩, [(id, some e)], false, false, false⟩
    | pending, _ =>
      let f := runFn ops
      match ret with
      | some e =>
        match f.wrapper.err with
        | none =>
          let a := f.wrapper.abort e
          ⟨⟨[], false⟩,
            (id, some e) :: pending.map (fun j => (j, some Err.transactionAborted)),
            f.rolledBack || a.rolledBack, false, f.panicked || a.panicked⟩
        | some _ =>
          ⟨⟨[], false⟩,
            (id, some e) :: pending.map (fun j => (j, some Err.transactionAborted)),
            f.rolledBack, false, f.panicked⟩
      | none =>
        match f.wrapper.err with
        | some _ =>
          ⟨⟨[], false⟩, pending.map (fun j => (j, some Err.transactionAborted)),
            f.rolledBack, false, f.panicked⟩
        | none =>
          ⟨⟨pending ++ [id], true⟩, [], f.rolledBack, false, f.panicked⟩
  | .tick commitRes =>
    match s.pending with
    | [] => ⟨s, [], false, false, false⟩
    | p :: ps =>
      ⟨⟨[], false⟩, (p :: ps).map (fun j => (j, commitRes)), false, true, false⟩

/-- Run the processor over a sequence of events from a given state,
collecting every response sent. -/
def runTrace (s : ProcState) : List Event → ProcState × List (Nat × Option Err)
  | [] => (s, [])
  | ev :: evs =>
    let out := procStep s ev
    let rest := runTrace out.state evs
    (rest.1, out.responses ++ rest.2)

/-- The ids of the write requests received in an event sequence. -/
def recvIds : List Event → List Nat
  | [] => []
  | .recv id _ _ _ :: evs => id :: recvIds evs
  | .tick _ :: evs => recvIds evs

/-! ## Store construction (src/db.go:72-110) -/

/-- The two connection pools opened by `NewBatchDB`. -/
inductive Pool where
  | write
  | read
deriving DecidableEq, Repr

/-- Oracle for the four fallible steps of `NewBatchDB`, in program order:
`sql.Open` of the write pool, `setupSqlitePragmas` on it, `sql.Open` of the
read pool, `setupSqlitePragmas` on it (`none` = success). -/
structure OpenEnv where
  openWriteErr : Option Err
  pragmaWriteErr : Option Err
  openReadErr : Option Err
  pragmaReadErr : Option Err
deriving DecidableEq, Repr

/-- Observable outcome of `NewBatchDB`: whether a `*BatchDB` was returned
(and its processor goroutine started), the error returned otherwise, which
pools had been opened, and which pools were closed before returning. -/
structure ConstructOut where
  ok : Bool
  retErr : Option Err
  opened : List Pool
  closed : List Pool
deriving DecidableEq, Repr

/-- `NewBatchDB` (src/db.go:72-110).  Each failing step does a bare
`return nil, err`; no `Close` appears on any path, so `closed` stays empty
throughout. -/
def newBatchDB (env : OpenEnv) : ConstructOut :=
  match env.openWriteErr with
  | some e => ⟨false, some e, [], []⟩
  | none =>
    match env.pragmaWriteErr with
    | some e => ⟨false, some e, [.write], []⟩
    | none =>
      match env.openReadErr with
      | some e => ⟨false, some e, [.write], []⟩
      | none =>
        match env.pragmaReadErr with
        | some e => ⟨false, some e, [.write, .read], []⟩
        | none => ⟨true, none, [.write, .read], []⟩

/-! ## The flush ticker period (src/db.go:115) -/

/-- Two's-complement wraparound of Go's 64-bit signed integers
(`time.Duration` is an `int64` count of nanoseconds). -/
def wrap64 (x : Int) : Int := (x + 2 ^ 63) % 2 ^ 64 - 2 ^ 63

/-- `time.Millisecond` in nanoseconds. -/
def millisecondNs : Int := 1000000

/-- The period handed to `time.NewTicker` at src/db.go:115, in nanoseconds:
`db.flushTimeout * time.Millisecond`, where `flushTimeout` is the
`time.Duration` supplied to `NewBatchDB`. -/
def tickerPeriodNs (flushTimeout : Int) : Int :=
  wrap64 (flushTimeout * millisecondNs)

/-! ## Helper lemmas -/

theorem execContext_panicked (t : TxWrapper) (se : Option Err) :
    (t.execContext se).panicked = false := by
  obtain ⟨oe⟩ := t
  cases oe <;> cases se <;> rfl

theorem queryContext_panicked (t : TxWrapper) (se : Option Err) :
    (t.queryContext se).panicked = false := by
  obtain ⟨oe⟩ := t
  cases oe <;> cases se <;> rfl

theorem applyOp_panicked (acc : FnRes) (op : FnOp) (h : acc.panicked = false) :
    (applyOp acc op).panicked = false := by
  cases op with
  | exec store => simp [applyOp, h, execContext_panicked]
  | query store => simp [applyOp, h, queryContext_panicked]

theorem runFnFrom_panicked (ops : List FnOp) :
    ∀ acc : FnRes, acc.panicked = false → (runFnFrom acc ops).panicked = false := by
  induction ops with
  | nil => intro acc h; simpa [runFnFrom] using h
  | cons op ops ih =>
    intro acc h
    simpa [runFnFrom] using ih (applyOp acc op) (applyOp_panicked acc op h)

theorem runFn_panicked (ops : List FnOp) : (runFn ops).panicked = false :=
  runFnFrom_panicked ops ⟨⟨none⟩, false, false⟩ rfl

theorem applyOp_cell_rolledBack (acc : FnRes) (op : FnOp)
    (h : acc.wrapper.err ≠ none → acc.rolledBack = true) :
    (applyOp acc op).wrapper.err ≠ none → (applyOp acc op).rolledBack = true := by
  obtain ⟨⟨oe⟩, rb, pan⟩ := acc
  cases op with
  | exec store =>
    cases oe with
    | some e => intro _; simp [applyOp, TxWrapper.execContext, h]
    | none =>
      cases store with
      | none => intro hne; exact absurd rfl hne
      | some e =>
        intro _
        simp [applyOp, TxWrapper.execContext, TxWrapper.abort]
  | query store =>
    cases oe with
    | some e => intro _; simp [applyOp, TxWrapper.queryContext, h]
    | none =>
      cases store with
      | none => intro hne; exact absurd rfl hne
      | some e =>
        intro _
        simp [applyOp, TxWrapper.queryContext, TxWrapper.abort]

theorem runFnFrom_cell_rolledBack (ops : List FnOp) :
    ∀ acc : FnRes, (acc.wrapper.err ≠ none → acc.rolledBack = true) →
      (runFnFrom acc ops).wrapper.err ≠ none → (runFnFrom acc ops).rolledBack = true := by
  induction ops with
  | nil => intro acc h; simpa [runFnFrom] using h
  | cons op ops ih =>
    intro acc h
    simpa [runFnFrom] using ih (applyOp acc op) (applyOp_cell_rolledBack acc op h)

/-- If a unit's function left its handle's error cell non-empty, the
transaction was rolled back during its execution (the cell is only ever set
by `Abort`, which rolls back). -/
theorem runFn_cell_rolledBack (ops : List FnOp)
    (h : (runFn ops).wrapper.err ≠ none) : (runFn ops).rolledBack = true :=
  runFnFrom_cell_rolledBack ops ⟨⟨none⟩, false, false⟩ (fun hne => absurd rfl hne) h

theorem procStep_panicked (s : ProcState) (ev : Event) :
    (procStep s ev).panicked = false := by
  obtain ⟨pending, tx⟩ := s
  cases ev with
  | recv id b ops ret =>
    cases pending with
    | nil =>
      cases b with
      | some e => rfl
      | none =>
        cases ret with
        | some e =>
          cases hcell : (runFn ops).wrapper.err with
          | none => simp [procStep, hcell, TxWrapper.abort, runFn_panicked]
          | some c => simp [procStep, hcell, runFn_panicked]
        | none =>
          cases hcell : (runFn ops).wrapper.err with
          | none => simp [procStep, hcell, runFn_panicked]
          | some c => simp [procStep, hcell, runFn_panicked]
    | cons p ps =>
      cases ret with
      | some e =>
        cases hcell : (runFn ops).wrapper.err with
        | none => simp [procStep, hcell, TxWrapper.abort, runFn_panicked]
        | some c => simp [procStep, hcell, runFn_panicked]
      | none =>
        cases hcell : (runFn ops).wrapper.err with
        | none => simp [procStep, hcell, runFn_panicked]
        | some c => simp [procStep, hcell, runFn_panicked]
  | tick c =>
    cases pending with
    | nil => rfl
    | cons p ps => rfl

theorem map_fst_pairs (p : List Nat) (e : Option Err) :
    (p.map (fun j => (j, e))).map Prod.fst = p := by
  induction p with
  | nil => rfl
  | cons a l ih => simp [ih]

theorem map_fst_pairs_comp (p : List Nat) (e : Option Err) :
    p.map (Prod.fst ∘ fun j => (j, e)) = p := by
  induction p with
  | nil => rfl
  | cons a l ih => simp [ih]

/-! ## Claim theorems -/

/-- C4: whenever the handle's shared error cell is already non-empty, every
handle operation (`ExecContext`, `QueryContext`, `QueryRowContext`) and
every cursor operation derived from it (`Scan` on a row, `Scan`/`Next`/
`Close`/`Err` on a row set) short-circuits — `ExecContext`/`QueryContext`
and the cursor error-returning calls yield the synthesized `already
aborted` error, `QueryRowContext` yields a nil-row wrapper whose `Scan`
yields it, `Next` yields `false` — and none of them issues any call to the
underlying store (`storeCalled = false` throughout), changes the cell,
rolls back, or faults. -/
theorem c4_aborted_short_circuit (t : TxWrapper) (e : Err) (se : Option Err)
    (sb : Bool) (r : RowWrapper) (h : t.err = some e) :
    t.execContext se = ⟨t, some .alreadyAborted, false, false, false, false⟩ ∧
    t.queryContext se = ⟨t, (none, some .alreadyAborted), false, false, false, false⟩ ∧
    t.queryRowContext = ⟨t, ⟨none⟩, false, false, false, false⟩ ∧
    rowScan t r se = ⟨t, some .alreadyAborted, false, false, false, false⟩ ∧
    rowsScan t se = ⟨t, some .alreadyAborted, false, false, false, false⟩ ∧
    rowsNext t sb = ⟨t, false, false, false, false, false⟩ ∧
    rowsClose t se = ⟨t, some .alreadyAborted, false, false, false, false⟩ ∧
    rowsErr t se = ⟨t, some .alreadyAborted, false, false, false, false⟩ := by
  obtain ⟨oe⟩ := t
  replace h : oe = some e := h
  subst h
  exact ⟨rfl, rfl, rfl, rfl, rfl, rfl, rfl, rfl⟩

theorem c4_aborted_short_circuit_witness :
    TxWrapper.execContext ⟨some (Err.store 1)⟩ none
      = ⟨⟨some (Err.store 1)⟩, some .alreadyAborted, false, false, false, false⟩ ∧
    TxWrapper.queryContext ⟨some (Err.store 1)⟩ none
      = ⟨⟨some (Err.store 1)⟩, (none, some .alreadyAborted), false, false, false, false⟩ ∧
    TxWrapper.queryRowContext ⟨some (Err.store 1)⟩
      = ⟨⟨some (Err.store 1)⟩, ⟨none⟩, false, false, false, false⟩ ∧
    rowScan ⟨some (Err.store 1)⟩ ⟨some ()⟩ none
      = ⟨⟨some (Err.store 1)⟩, some .alreadyAborted, false, false, false, false⟩ ∧
    rowsScan ⟨some (Err.store 1)⟩ none
      = ⟨⟨some (Err.store 1)⟩, some .alreadyAborted, false, false, false, false⟩ ∧
    rowsNext ⟨some (Err.store 1)⟩ true
      = ⟨⟨some (Err.store 1)⟩, false, false, false, false, false⟩ ∧
    rowsClose ⟨some (Err.store 1)⟩ none
      = ⟨⟨some (Err.store 1)⟩, some .alreadyAborted, false, false, false, false⟩ ∧
    rowsErr ⟨some (Err.store 1)⟩ none
      = ⟨⟨some (Err.store 1)⟩, some .alreadyAborted, false, false, false, false⟩ :=
  c4_aborted_short_circuit ⟨some (Err.store 1)⟩ (Err.store 1) none true ⟨some ()⟩ rfl

/-- C5: the error cell is set at most once — `Abort` on a wrapper whose cell
is already set hits the `panic` branch (fatal, not silently ignored, and no
second rollback), while on an empty cell it records the error and rolls
back; and the double-set branch is unreachable from the exported handle and
cursor operations and from the batch processor's own abort path, since each
of them checks the cell before calling `Abort`: every such operation, and
every processor step, reports `panicked = false` on all inputs. -/
theorem c5_abort_at_most_once (t : TxWrapper) (e e' : Err) (se : Option Err)
    (sb : Bool) (r : RowWrapper) (s : ProcState) (ev : Event) :
    TxWrapper.abort ⟨some e⟩ e' = ⟨⟨some e⟩, true, false⟩ ∧
    TxWrapper.abort ⟨none⟩ e' = ⟨⟨some e'⟩, false, true⟩ ∧
    (t.execContext se).panicked = false ∧
    (t.queryContext se).panicked = false ∧
    (t.queryRowContext).panicked = false ∧
    (rowsScan t se).panicked = false ∧
    (rowsNext t sb).panicked = false ∧
    (rowsClose t se).panicked = false ∧
    (rowsErr t se).panicked = false ∧
    (rowScan t r se).panicked = false ∧
    (procStep s ev).panicked = false := by
  refine ⟨rfl, rfl, execContext_panicked t se, queryContext_panicked t se,
    ?_, ?_, ?_, ?_, ?_, ?_, procStep_panicked s ev⟩
  · obtain ⟨oe⟩ := t; cases oe <;> rfl
  · obtain ⟨oe⟩ := t; cases oe <;> cases se <;> rfl
  · obtain ⟨oe⟩ := t; cases oe <;> rfl
  · obtain ⟨oe⟩ := t; cases oe <;> rfl
  · obtain ⟨oe⟩ := t; cases oe <;> rfl
  · obtain ⟨oe⟩ := t
    cases oe with
    | some c => rfl
    | none =>
      obtain ⟨ro⟩ := r
      cases ro <;> cases se <;> rfl

/-- C10: `QueryRowContext` on a handle whose cell is already set returns a
wrapper carrying a nil underlying row without contacting the store, and a
subsequent `Scan` on that wrapper checks the shared cell first and returns
the `already aborted` error without ever dereferencing the nil row
(`nilDeref = false`) and without a store call. -/
theorem c10_nil_row_scan_safe (t : TxWrapper) (e : Err) (se : Option Err)
    (h : t.err = some e) :
    t.queryRowContext = ⟨t, ⟨none⟩, false, false, false, false⟩ ∧
    rowScan t (t.queryRowContext).result se
      = ⟨t, some .alreadyAborted, false, false, false, false⟩ := by
  obtain ⟨oe⟩ := t
  replace h : oe = some e := h
  subst h
  exact ⟨rfl, rfl⟩

/-- C2, counterexample: the batch processor creates a fresh `txWrapper` —
hence a fresh error cell — for every received unit (src/db.go:128), so an
abort triggered by a *different* unit in the same batch never reaches a
cursor created by an earlier unit.  Concretely: unit 1 runs a successful
`QueryContext` (keeping the cursor) and joins the batch; unit 2 then fails,
the processor rolls the shared transaction back and resolves unit 1 with
the generic abort; yet unit 1's handle cell is still empty, so the cursor's
`Next` still contacts the store and returns a row, and its `Err` returns
`none` — not the sticky `already aborted` error the claim requires. -/
theorem c2_counterexample :
    ((procStep ⟨[], false⟩ (.recv 1 none [.query none] none)).state.pending = [1] ∧
      (procStep (procStep ⟨[], false⟩ (.recv 1 none [.query none] none)).state
          (.recv 2 none [.exec (some (Err.store 7))] none)).rolledBack = true ∧
      (1, some Err.transactionAborted) ∈
        (procStep (procStep ⟨[], false⟩ (.recv 1 none [.query none] none)).state
          (.recv 2 none [.exec (some (Err.store 7))] none)).responses) ∧
    ((runFn [.query none]).wrapper.err = none ∧
      ((runFn [.query none]).wrapper.queryContext none).result.1 = some ⟨true⟩ ∧
      (rowsNext (runFn [.query none]).wrapper true).result = true ∧
      (rowsNext (runFn [.query none]).wrapper true).storeCalled = true ∧
      (rowsErr (runFn [.query none]).wrapper none).result = none ∧
      (rowsErr (runFn [.query none]).wrapper none).result ≠ some Err.alreadyAborted) := by
  decide

/-- C2, amended: a cursor observes aborts solely through the error cell of
the handle that created it.  When that cell is set, every subsequent
`Scan`/`Next`/`Close`/`Err` short-circuits to the sticky abort result with
no store call; when that cell is empty — as it is after an abort triggered
by a *different* unit of the same batch, which acts on its own fresh handle
— every one of those calls contacts the store and returns the store's
answer as if no abort had happened. -/
theorem c2_cursor_cell_locality (t : TxWrapper) (se : Option Err) (sb : Bool) :
    (t.err ≠ none →
      (rowsScan t se).result = some .alreadyAborted ∧ (rowsScan t se).storeCalled = false ∧
      rowsNext t sb = ⟨t, false, false, false, false, false⟩ ∧
      rowsClose t se = ⟨t, some .alreadyAborted, false, false, false, false⟩ ∧
      rowsErr t se = ⟨t, some .alreadyAborted, false, false, false, false⟩) ∧
    (t.err = none →
      (rowsScan t se).result = se ∧ (rowsScan t se).storeCalled = true ∧
      rowsNext t sb = ⟨t, sb, true, false, false, false⟩ ∧
      rowsClose t se = ⟨t, se, true, false, false, false⟩ ∧
      rowsErr t se = ⟨t, se, true, false, false, false⟩) := by
  obtain ⟨oe⟩ := t
  cases oe with
  | some c =>
    refine ⟨fun _ => ⟨rfl, rfl, rfl, rfl, rfl⟩, fun h => ?_⟩
    exact absurd h (by simp)
  | none =>
    refine ⟨fun h => absurd rfl h, fun _ => ?_⟩
    cases se <;> exact ⟨rfl, rfl, rfl, rfl, rfl⟩

theorem c2_cursor_cell_locality_witness :
    (rowsNext ⟨some Err.transactionAborted⟩ true
        = ⟨⟨some Err.transactionAborted⟩, false, false, false, false, false⟩ ∧
      rowsErr ⟨some Err.transactionAborted⟩ none
        = ⟨⟨some Err.transactionAborted⟩, some .alreadyAborted, false, false, false, false⟩) ∧
    (rowsNext ⟨none⟩ true = ⟨⟨none⟩, true, true, false, false, false⟩ ∧
      rowsErr ⟨none⟩ none = ⟨⟨none⟩, none, true, false, false, false⟩) := by
  have h1 := (c2_cursor_cell_locality ⟨some Err.transactionAborted⟩ none true).1 (by simp)
  have h2 := (c2_cursor_cell_locality ⟨none⟩ none true).2 rfl
  exact ⟨⟨h1.2.2.1, h1.2.2.2.2⟩, ⟨h2.2.2.1, h2.2.2.2.2⟩⟩

theorem c10_nil_row_scan_safe_witness :
    TxWrapper.queryRowContext ⟨some (Err.store 2)⟩
      = ⟨⟨some (Err.store 2)⟩, ⟨none⟩, false, false, false, false⟩ ∧
    rowScan ⟨some (Err.store 2)⟩
        (TxWrapper.queryRowContext ⟨some (Err.store 2)⟩).result none
      = ⟨⟨some (Err.store 2)⟩, some .alreadyAborted, false, false, false, false⟩ :=
  c10_nil_row_scan_safe ⟨some (Err.store 2)⟩ (Err.store 2) none rfl

/-- Invariant for the response-uniqueness argument: starting from a state
whose pending ids are distinct and disjoint from the ids of the requests
still to arrive, the processor never resolves the same id twice, and every
id it resolves was either pending initially or arrived in the trace. -/
theorem trace_resolved_ids (evs : List Event) :
    ∀ s : ProcState,
      s.pending.Nodup →
      (∀ j ∈ s.pending, j ∉ recvIds evs) →
      (recvIds evs).Nodup →
      ((runTrace s evs).2.map Prod.fst).Nodup ∧
      (∀ j ∈ (runTrace s evs).2.map Prod.fst,
        j ∈ s.pending ∨ j ∈ recvIds evs) := by
  induction evs with
  | nil =>
    intro s _ _ _
    simp [runTrace]
  | cons ev evs ih =>
    intro s hnd hdisj hids
    obtain ⟨pending, tx⟩ := s
    cases ev with
    | tick c =>
      replace hdisj : ∀ j ∈ pending, j ∉ recvIds evs := hdisj
      replace hids : (recvIds evs).Nodup := hids
      cases pending with
      | nil =>
        have h := ih ⟨[], tx⟩ hnd hdisj hids
        simpa [runTrace, procStep] using h
      | cons p ps =>
        obtain ⟨rnd, rsub⟩ := ih ⟨[], false⟩ (by simp) (by simp) hids
        have rsub' : ∀ j ∈ (runTrace ⟨[], false⟩ evs).2.map Prod.fst,
            j ∈ recvIds evs := by
          intro j hj
          rcases rsub j hj with h | h
          · simp at h
          · exact h
        constructor
        · simp only [runTrace, procStep, List.map_append, map_fst_pairs]
          rw [List.nodup_append]
          refine ⟨hnd, rnd, ?_⟩
          intro a ha hb
          exact hdisj a ha (rsub' a hb)
        · intro j hj
          simp only [runTrace, procStep, List.map_append, map_fst_pairs,
            List.mem_append] at hj
          rcases hj with h | h
          · exact Or.inl h
          · exact Or.inr (rsub' j h)
    | recv id b ops ret =>
      have hidR : id ∉ recvIds evs := (List.nodup_cons.mp hids).1
      have hR : (recvIds evs).Nodup := (List.nodup_cons.mp hids).2
      have hdisjP : ∀ j ∈ pending, j ∉ recvIds evs := fun j hj hm =>
        hdisj j hj (List.mem_cons_of_mem _ hm)
      have hidP : id ∉ pending := fun hm =>
        hdisj id hm (List.mem_cons_self id (recvIds evs))
      -- the three shapes a `recv` step can take
      obtain ⟨rnd, rsub⟩ := ih ⟨[], false⟩ (by simp) (by simp) hR
      have rsub' : ∀ j ∈ (runTrace ⟨[], false⟩ evs).2.map Prod.fst,
          j ∈ recvIds evs := by
        intro j hj
        rcases rsub j hj with h | h
        · simp at h
        · exact h
      have habort : ∀ resp : List (Nat × Option Err),
          resp.map Prod.fst = id :: pending ∨ resp.map Prod.fst = pending →
          ((resp ++ (runTrace ⟨[], false⟩ evs).2).map Prod.fst).Nodup ∧
          (∀ j ∈ (resp ++ (runTrace ⟨[], false⟩ evs).2).map Prod.fst,
            j ∈ pending ∨ j ∈ recvIds (Event.recv id b ops ret :: evs)) := by
        intro resp hresp
        have hstep : ∀ j ∈ resp.map Prod.fst, j = id ∨ j ∈ pending := by
          intro j hj
          rcases hresp with h | h <;> rw [h] at hj
          · rw [List.mem_cons] at hj
            exact hj
          · exact Or.inr hj
        constructor
        · rw [List.map_append, List.nodup_append]
          refine ⟨?_, rnd, ?_⟩
          · rcases hresp with h | h <;> rw [h]
            · exact List.nodup_cons.mpr ⟨hidP, hnd⟩
            · exact hnd
          · intro a ha hb
            rcases hstep a ha with h | h
            · exact hidR (h ▸ rsub' a hb)
            · exact hdisjP a h (rsub' a hb)
        · intro j hj
          rw [List.map_append, List.mem_append] at hj
          rcases hj with hj | hj
          · rcases hstep j hj with h | h
            · exact Or.inr (h ▸ List.mem_cons_self _ _)
            · exact Or.inl h
          · exact Or.inr (List.mem_cons_of_mem _ (rsub' j hj))
      cases pending with
      | nil =>
        cases b with
        | some e =>
          -- Begin failed: only this unit is resolved
          have h := habort [(id, some e)] (by simp)
          simpa [runTrace, procStep] using h
        | none =>
          cases ret with
          | some e =>
            cases hcell : (runFn ops).wrapper.err with
            | none =>
              have h := habort
                ((id, some e) :: ([] : List Nat).map
                  (fun j => (j, some Err.transactionAborted))) (by simp)
              simpa [runTrace, procStep, hcell, TxWrapper.abort] using h
            | some c =>
              have h := habort
                ((id, some e) :: ([] : List Nat).map
                  (fun j => (j, some Err.transactionAborted))) (by simp)
              simpa [runTrace, procStep, hcell] using h
          | none =>
            cases hcell : (runFn ops).wrapper.err with
            | some c =>
              have h := habort
                (([] : List Nat).map
                  (fun j => (j, some Err.transactionAborted))) (by simp)
              simpa [runTrace, procStep, hcell] using h
            | none =>
              -- the unit joins the batch
              obtain ⟨rnd2, rsub2⟩ := ih ⟨[id], true⟩ (by simp)
                (by simpa using hidR) hR
              constructor
              · simpa [runTrace, procStep, hcell] using rnd2
              · intro j hj
                simp only [runTrace, procStep, hcell] at hj
                rcases rsub2 j (by simpa using hj) with h | h
                · simp at h
                  exact Or.inr (h ▸ List.mem_cons_self _ _)
                · exact Or.inr (List.mem_cons_of_mem _ h)
      | cons q qs =>
        cases ret with
        | some e =>
          cases hcell : (runFn ops).wrapper.err with
          | none =>
            have h := habort
              ((id, some e) :: (q :: qs).map
                (fun j => (j, some Err.transactionAborted)))
              (by simp [map_fst_pairs_comp])
            simpa [runTrace, procStep, hcell, TxWrapper.abort] using h
          | some c =>
            have h := habort
              ((id, some e) :: (q :: qs).map
                (fun j => (j, some Err.transactionAborted)))
              (by simp [map_fst_pairs_comp])
            simpa [runTrace, procStep, hcell] using h
        | none =>
          cases hcell : (runFn ops).wrapper.err with
          | some c =>
            have h := habort
              ((q :: qs).map (fun j => (j, some Err.transactionAborted)))
              (by simp [map_fst_pairs_comp])
            simpa [runTrace, procStep, hcell] using h
          | none =>
            -- the unit joins the batch
            have hnd2 : (q :: qs ++ [id]).Nodup := by
              rw [List.nodup_append]
              refine ⟨hnd, by simp, ?_⟩
              intro a ha hb
              simp at hb
              exact hidP (hb ▸ ha)
            have hdisj2 : ∀ j ∈ q :: qs ++ [id], j ∉ recvIds evs := by
              intro j hj
              rw [List.mem_append] at hj
              rcases hj with h | h
              · exact hdisjP j h
              · simp at h
                exact h ▸ hidR
            obtain ⟨rnd2, rsub2⟩ := ih ⟨q :: qs ++ [id], true⟩ hnd2 hdisj2 hR
            constructor
            · simpa [runTrace, procStep, hcell] using rnd2
            · intro j hj
              simp only [runTrace, procStep, hcell] at hj
              rcases rsub2 j (by simpa using hj) with h | h
              · rw [List.mem_append] at h
                rcases h with h | h
                · exact Or.inl h
                · simp at h
                  exact Or.inr (h ▸ List.mem_cons_self _ _)
              · exact Or.inr (List.mem_cons_of_mem _ h)

/-- C9: for every submitted write unit, at most one result is ever sent on
its private response channel: over any event sequence in which each
received request carries a distinct response channel (distinct ids), the
ids of all responses the processor emits are pairwise distinct — every
resolution path removes the units it resolves from the pending batch before
any later send could target them again. -/
theorem c9_at_most_one_response (evs : List Event)
    (hids : (recvIds evs).Nodup) :
    ((runTrace ⟨[], false⟩ evs).2.map Prod.fst).Nodup :=
  (trace_resolved_ids evs ⟨[], false⟩ (by simp) (by simp) hids).1

theorem c9_at_most_one_response_witness :
    ((runTrace ⟨[], false⟩
        [.recv 1 none [] none,
         .recv 2 none [.exec (some (Err.store 3))] (some (Err.store 3)),
         .recv 4 none [] none,
         .tick none]).2.map Prod.fst).Nodup :=
  c9_at_most_one_response _ (by decide)

/-- C6: when the pending batch is empty and `Begin` fails, only the
triggering unit is resolved, with the `Begin` error itself; no batch is
created (`pending` stays empty), nothing is rolled back or committed, no
panic occurs, and the loop goes on to the next event. -/
theorem c6_begin_failure_isolated (s : ProcState) (id : Nat) (e : Err)
    (ops : List FnOp) (ret : Option Err) (h : s.pending = []) :
    procStep s (.recv id (some e) ops ret)
      = ⟨⟨[], false⟩, [(id, some e)], false, false, false⟩ := by
  obtain ⟨pending, tx⟩ := s
  replace h : pending = [] := h
  subst h
  rfl

theorem c6_begin_failure_isolated_witness :
    procStep ⟨[], true⟩ (.recv 5 (some (Err.beginFail 9)) [.exec none] none)
      = ⟨⟨[], false⟩, [(5, some (Err.beginFail 9))], false, false, false⟩ :=
  c6_begin_failure_isolated ⟨[], true⟩ 5 (Err.beginFail 9) [.exec none] none rfl

/-- C3: on a timer tick with a non-empty pending batch, the transaction is
committed and every pending unit is resolved with the same single commit
outcome (`none` on success, the commit error otherwise, uniformly), and the
batch is cleared; on a tick with an empty batch nothing happens — no
commit, no responses, state unchanged. -/
theorem c3_tick_uniform_commit (s : ProcState) (c : Option Err) :
    (s.pending ≠ [] →
      procStep s (.tick c)
        = ⟨⟨[], false⟩, s.pending.map (fun j => (j, c)), false, true, false⟩) ∧
    (s.pending = [] → procStep s (.tick c) = ⟨s, [], false, false, false⟩) := by
  obtain ⟨pending, tx⟩ := s
  cases pending with
  | nil => exact ⟨fun h => absurd rfl h, fun _ => rfl⟩
  | cons p ps => exact ⟨fun _ => rfl, fun h => by simp at h⟩

theorem c3_tick_uniform_commit_witness :
    procStep ⟨[1, 2], true⟩ (.tick (some (Err.commitFail 4)))
      = ⟨⟨[], false⟩, [(1, some (Err.commitFail 4)), (2, some (Err.commitFail 4))],
          false, true, false⟩ ∧
    procStep ⟨[], true⟩ (.tick none) = ⟨⟨[], true⟩, [], false, false, false⟩ := by
  constructor
  · have h := (c3_tick_uniform_commit ⟨[1, 2], true⟩ (some (Err.commitFail 4))).1 (by simp)
    simpa using h
  · exact (c3_tick_uniform_commit ⟨[], true⟩ none).2 rfl

/-- C1, counterexample: when a received unit's function returns `nil` even
though the handle's error cell was set during its execution (a store call
failed inside it and the unit swallowed the error), the processor broadcasts
the generic abort to the pending units and clears the batch — but never
sends anything to the triggering unit itself (src/db.go:130-137 only
responds when the returned error is non-nil), so that unit is *not*
resolved with its own actual error as the claim requires; its `Write` call
blocks forever. -/
theorem c1_counterexample :
    (runFn [.exec (some (Err.store 7))]).wrapper.err = some (Err.store 7) ∧
    (procStep ⟨[1], true⟩ (.recv 2 none [.exec (some (Err.store 7))] none)).responses
      = [(1, some Err.transactionAborted)] ∧
    (2, some (Err.store 7)) ∉
      (procStep ⟨[1], true⟩ (.recv 2 none [.exec (some (Err.store 7))] none)).responses ∧
    ∀ r ∈ (procStep ⟨[1], true⟩
        (.recv 2 none [.exec (some (Err.store 7))] none)).responses,
      r.1 ≠ 2 := by
  decide

/-- C1, amended: for a unit that actually executes (the batch was non-empty,
or `Begin` succeeded), if its function returns an error or the handle's
cell ended non-empty, then the transaction is rolled back, every
already-pending unit of the batch is resolved with the generic
`Transaction aborted` error (never the triggering unit's specific error),
and the batch is cleared so the next unit starts a fresh transaction; the
triggering unit itself is resolved with the error its function returned
when that is non-nil, and receives no response at all when its function
returned nil despite the cell being set. -/
theorem c1_abort_resolution (s : ProcState) (id : Nat) (b : Option Err)
    (ops : List FnOp) (ret : Option Err)
    (hb : s.pending = [] → b = none)
    (hfail : ret ≠ none ∨ (runFn ops).wrapper.err ≠ none) :
    (procStep s (.recv id b ops ret)).state.pending = [] ∧
    (procStep s (.recv id b ops ret)).rolledBack = true ∧
    (procStep s (.recv id b ops ret)).responses
      = (ret.map (fun e => (id, some e))).toList
          ++ s.pending.map (fun j => (j, some Err.transactionAborted)) := by
  obtain ⟨pending, tx⟩ := s
  have main :
      (procStep ⟨pending, tx⟩ (.recv id none ops ret)).state.pending = [] ∧
      (procStep ⟨pending, tx⟩ (.recv id none ops ret)).rolledBack = true ∧
      (procStep ⟨pending, tx⟩ (.recv id none ops ret)).responses
        = (ret.map (fun e => (id, some e))).toList
            ++ pending.map (fun j => (j, some Err.transactionAborted)) := by
    cases ret with
    | some e =>
      cases hcell : (runFn ops).wrapper.err with
      | none =>
        cases pending with
        | nil =>
          simp [procStep, hcell, TxWrapper.abort]
        | cons q qs =>
          simp [procStep, hcell, TxWrapper.abort]
      | some c =>
        have hrb := runFn_cell_rolledBack ops (by simp [hcell])
        cases pending with
        | nil => simp [procStep, hcell, hrb]
        | cons q qs => simp [procStep, hcell, hrb]
    | none =>
      cases hcell : (runFn ops).wrapper.err with
      | none =>
        exact absurd (hfail.resolve_left (by simp)) (by simp [hcell])
      | some c =>
        have hrb := runFn_cell_rolledBack ops (by simp [hcell])
        cases pending with
        | nil => simp [procStep, hcell, hrb]
        | cons q qs => simp [procStep, hcell, hrb]
  cases pending with
  | nil => exact (hb rfl) ▸ main
  | cons q qs =>
    cases b with
    | none => exact main
    | some e =>
      -- with a non-empty batch `Begin` is not consulted; the step is the
      -- same as with `b = none`
      have hsame :
          procStep ⟨q :: qs, tx⟩ (.recv id (some e) ops ret)
            = procStep ⟨q :: qs, tx⟩ (.recv id none ops ret) := rfl
      rw [hsame]
      exact main

theorem c1_abort_resolution_witness :
    (procStep ⟨[3], true⟩ (.recv 7 none [] (some (Err.user 1)))).state.pending = [] ∧
    (procStep ⟨[3], true⟩ (.recv 7 none [] (some (Err.user 1)))).rolledBack = true ∧
    (procStep ⟨[3], true⟩ (.recv 7 none [] (some (Err.user 1)))).responses
      = [(7, some (Err.user 1)), (3, some Err.transactionAborted)] := by
  have h := c1_abort_resolution ⟨[3], true⟩ 7 none [] (some (Err.user 1))
    (fun hp => rfl) (Or.inl (by simp))
  exact ⟨h.1, h.2.1, by simpa using h.2.2⟩

/-- C7, counterexample: when the pragma setup of the already-opened write
pool fails, `NewBatchDB` returns the error with the write pool opened — and
closes nothing: no `Close` call appears on any failure path of
src/db.go:72-110, so the opened pool is leaked rather than closed before
the constructor returns. -/
theorem c7_counterexample :
    newBatchDB ⟨none, some (Err.store 3), none, none⟩
      = ⟨false, some (Err.store 3), [Pool.write], []⟩ ∧
    Pool.write ∈ (newBatchDB ⟨none, some (Err.store 3), none, none⟩).opened ∧
    Pool.write ∉ (newBatchDB ⟨none, some (Err.store 3), none, none⟩).closed := by
  decide

/-- C7, amended: any connection-open failure or pragma-application failure
does abort construction and return that error (no `*BatchDB` is produced
and its processor goroutine is not started), but the pools already opened
before the failure are left open — nothing is ever closed on a failure
path. -/
theorem c7_construction_abort (env : OpenEnv)
    (h : env.openWriteErr ≠ none ∨ env.pragmaWriteErr ≠ none ∨
      env.openReadErr ≠ none ∨ env.pragmaReadErr ≠ none) :
    (newBatchDB env).ok = false ∧ (newBatchDB env).retErr ≠ none ∧
    (newBatchDB env).closed = [] := by
  obtain ⟨a, b, c, d⟩ := env
  cases a <;> cases b <;> cases c <;> cases d <;> simp_all [newBatchDB]

theorem c7_construction_abort_witness :
    (newBatchDB ⟨none, none, some (Err.store 8), none⟩).ok = false ∧
    (newBatchDB ⟨none, none, some (Err.store 8), none⟩).retErr ≠ none ∧
    (newBatchDB ⟨none, none, some (Err.store 8), none⟩).closed = [] :=
  c7_construction_abort ⟨none, none, some (Err.store 8), none⟩
    (Or.inr (Or.inr (Or.inl (by simp))))

/-- C8, counterexample: the ticker period is not the configured flush
duration — for a configured `time.Duration` of `1` (one nanosecond) the
event loop's ticker fires every `1000000` nanoseconds, because
src/db.go:115 multiplies `flushTimeout` by `time.Millisecond`. -/
theorem c8_counterexample :
    tickerPeriodNs 1 = 1000000 ∧ tickerPeriodNs 1 ≠ 1 := by
  constructor
  · norm_num [tickerPeriodNs, wrap64, millisecondNs]
  · norm_num [tickerPeriodNs, wrap64, millisecondNs]

/-- C8, amended: for every positive configured flush duration that does not
overflow Go's `int64` when multiplied, the ticker period equals the
configured duration times `time.Millisecond` (one million nanoseconds) —
the configured `time.Duration` is effectively reinterpreted as a count of
milliseconds — and is therefore never equal to the configured duration
itself. -/
theorem c8_ticker_period (d : Int) (h0 : 0 < d)
    (h1 : d * 1000000 < 2 ^ 63) :
    tickerPeriodNs d = d * 1000000 ∧ tickerPeriodNs d ≠ d := by
  have hlow : (0 : Int) ≤ d * 1000000 + 2 ^ 63 := by nlinarith
  have hhigh : d * 1000000 + 2 ^ 63 < 2 ^ 64 := by nlinarith
  have heq : tickerPeriodNs d = d * 1000000 := by
    unfold tickerPeriodNs wrap64 millisecondNs
    rw [Int.emod_eq_of_lt hlow hhigh]
    ring
  refine ⟨heq, ?_⟩
  rw [heq]
  intro hc
  nlinarith

theorem c8_ticker_period_witness :
    tickerPeriodNs 3 = 3000000 ∧ tickerPeriodNs 3 ≠ 3 := by
  have h := c8_ticker_period 3 (by norm_num) (by norm_num)
  exact ⟨by simpa using h.1, by simpa using h.2⟩

end Greener
